import Mathlib

/-
Verification of the Treasures of Montezuma 3 unpacker (src/unpack_data.py).

Shallow embedding conventions:
* bytes are modelled as `List Nat` (each element a byte value);
* the archive file is a `List Nat` with an explicit cursor position,
  `f.read(n)` returning up to `n` bytes like a Python file object;
* Python `str` values are modelled as lists of Unicode code points
  (`List Nat`), produced from bytes by `utf8DecodeReplace`, the model of
  `bytes.decode("utf-8", errors="replace")`;
* `zlib.decompress` is an external library call, modelled by an abstract
  parameter `inflate : List Nat -> Option (List Nat)`; `none` models a
  raised `zlib.error` (structurally invalid stream);
* file-system writes are collected into a list of `OutFile` records whose
  `path` is the component list relative to the output root; diagnostics
  printed by the script are collected as `Warn` values;
* fatal errors (Python exceptions escaping `unpack`) are `Except.error`.
-/

namespace Unpacker

/-- Code points of a string literal, used for ASCII byte/character constants. -/
def sCodes (s : String) : List Nat := s.data.map Char.toNat

/-- Model of `f.read(n)` at cursor `pos`: returns up to `n` bytes. -/
def fread (data : List Nat) (pos n : Nat) : List Nat := (data.drop pos).take n

/-- Little-endian 32-bit value of a 4-byte list (`struct.unpack("<I", ...)`). -/
def le32 : List Nat → Nat
  | [b0, b1, b2, b3] => b0 + b1 * 256 + b2 * 65536 + b3 * 16777216
  | _ => 0

/-- Model of `read_u32(f)`: reads 4 bytes at `pos`; `EOFError` when fewer
than 4 bytes remain.  Returns the value and the new cursor. -/
def read_u32 (data : List Nat) (pos : Nat) : Option (Nat × Nat) :=
  let bs := fread data pos 4
  if bs.length = 4 then some (le32 bs, pos + 4) else none

/-- One step of UTF-8 decoding with replacement: given a lead byte and the
following bytes, the decoded code point (`0xFFFD` on error) and how many
bytes after the lead were consumed (maximal-subpart policy of CPython's
`errors="replace"`). -/
def utf8Step (b : Nat) (rest : List Nat) : Nat × Nat :=
  if b < 0x80 then (b, 0)
  else if b < 0xC2 then (0xFFFD, 0)
  else if b ≤ 0xDF then
    match rest with
    | c1 :: _ =>
      if 0x80 ≤ c1 ∧ c1 ≤ 0xBF then ((b - 0xC0) * 64 + (c1 - 0x80), 1)
      else (0xFFFD, 0)
    | [] => (0xFFFD, 0)
  else if b ≤ 0xEF then
    let lo1 := if b = 0xE0 then 0xA0 else 0x80
    let hi1 := if b = 0xED then 0x9F else 0xBF
    match rest with
    | c1 :: r1 =>
      if lo1 ≤ c1 ∧ c1 ≤ hi1 then
        match r1 with
        | c2 :: _ =>
          if 0x80 ≤ c2 ∧ c2 ≤ 0xBF then
            ((b - 0xE0) * 4096 + (c1 - 0x80) * 64 + (c2 - 0x80), 2)
          else (0xFFFD, 1)
        | [] => (0xFFFD, 1)
      else (0xFFFD, 0)
    | [] => (0xFFFD, 0)
  else if b ≤ 0xF4 then
    let lo1 := if b = 0xF0 then 0x90 else 0x80
    let hi1 := if b = 0xF4 then 0x8F else 0xBF
    match rest with
    | c1 :: r1 =>
      if lo1 ≤ c1 ∧ c1 ≤ hi1 then
        match r1 with
        | c2 :: r2 =>
          if 0x80 ≤ c2 ∧ c2 ≤ 0xBF then
            match r2 with
            | c3 :: _ =>
              if 0x80 ≤ c3 ∧ c3 ≤ 0xBF then
                ((b - 0xF0) * 262144 + (c1 - 0x80) * 4096 +
                  (c2 - 0x80) * 64 + (c3 - 0x80), 3)
              else (0xFFFD, 2)
            | [] => (0xFFFD, 2)
          else (0xFFFD, 1)
        | [] => (0xFFFD, 1)
      else (0xFFFD, 0)
    | [] => (0xFFFD, 0)
  else (0xFFFD, 0)

/-- Structural worker for `utf8DecodeReplace`; the fuel is an upper bound
on the number of bytes left and only makes the recursion structural. -/
def utf8DecodeGo : Nat → List Nat → List Nat
  | 0, _ => []
  | _, [] => []
  | fuel + 1, b :: rest =>
    let s := utf8Step b rest
    s.1 :: utf8DecodeGo fuel (rest.drop s.2)

/-- Model of `bytes.decode("utf-8", errors="replace")`: total UTF-8
decoding, substituting `0xFFFD` for invalid sequences. -/
def utf8DecodeReplace (l : List Nat) : List Nat := utf8DecodeGo l.length l

/-- Model of `read_len_str(f)`: a u32 length then that many bytes decoded
as UTF-8 with replacement; `EOFError` on a short read of either part. -/
def read_len_str (data : List Nat) (pos : Nat) : Option (List Nat × Nat) :=
  match read_u32 data pos with
  | none => none
  | some (ln, p1) =>
    if ln = 0 then some ([], p1)
    else
      let bs := fread data p1 ln
      if bs.length = ln then some (utf8DecodeReplace bs, p1 + ln) else none

/-- Reads `n` successive length-prefixed strings starting at `pos`
(the list comprehensions in `parse_meta`). -/
def readStrings (data : List Nat) : Nat → Nat → Option (List (List Nat) × Nat)
  | pos, 0 => some ([], pos)
  | pos, n + 1 =>
    match read_len_str data pos with
    | none => none
    | some (s, p1) =>
      match readStrings data p1 n with
      | none => none
      | some (ss, p2) => some (s :: ss, p2)

/-- The dictionary returned by `parse_meta`, plus whether the
uncompressed-size-mismatch warning was printed. -/
structure Meta where
  unk0 : Nat
  unk1 : Nat
  method_name : List Nat
  exts : List (List Nat)
  groups : List (List Nat)
  warned : Bool
  deriving Repr, DecidableEq

/-- Model of `parse_meta(meta_comp)`: `none` models a raised exception
(`ValueError` for a short slice, `zlib.error` from `zlib.decompress`, or
`EOFError` from the sequential reads over the decompressed bytes). -/
def parse_meta (inflate : List Nat → Option (List Nat)) (meta_comp : List Nat) :
    Option Meta :=
  if meta_comp.length < 4 then none
  else
    match inflate (meta_comp.drop 4) with
    | none => none
    | some meta =>
      let warned : Bool := meta.length ≠ le32 (meta_comp.take 4)
      match read_u32 meta 0 with
      | none => none
      | some (unk0, p0) =>
        match read_u32 meta p0 with
        | none => none
        | some (unk1, p1) =>
          match read_len_str meta p1 with
          | none => none
          | some (mname, p2) =>
            match read_u32 meta p2 with
            | none => none
            | some (ext_count, p3) =>
              match readStrings meta p3 ext_count with
              | none => none
              | some (exts, p4) =>
                match read_u32 meta p4 with
                | none => none
                | some (group_count, p5) =>
                  match readStrings meta p5 group_count with
                  | none => none
                  | some (groups, _) =>
                    some ⟨unk0, unk1, mname, exts, groups, warned⟩

/-- A file written under the output root; `path` is the list of path
components relative to the output root (`os.path.join` pieces). -/
structure OutFile where
  path : List (List Nat)
  data : List Nat
  deriving Repr, DecidableEq

/-- Model of `write_converted(out_dir, base_name, ext, data)`. -/
def write_converted (base_name ext data : List Nat) : OutFile :=
  ⟨[sCodes "_converted", ext, base_name], data⟩

/-- The signature table of `detect_embedded`, in source order. -/
def magicTable : List (List Nat × List Nat) :=
  [([0x89, 0x50, 0x4E, 0x47, 0x0D, 0x0A, 0x1A, 0x0A], sCodes "png"),
   ([0xFF, 0xD8, 0xFF], sCodes "jpg"),
   (sCodes "OGGS", sCodes "ogg"),
   (sCodes "RIFF", sCodes "wav"),
   (sCodes "DDS ", sCodes "dds"),
   ([0x1A, 0x45, 0xDF, 0xA3], sCodes "webm")]

/-- Model of Python `bytes.find`: index of the first occurrence of `pat`
in `hay` starting at index `i`, `none` when absent (`-1` in Python). -/
def findSubAux (pat : List Nat) : List Nat → Nat → Option Nat
  | hay, i =>
    if pat.isPrefixOf hay then some i
    else
      match hay with
      | [] => none
      | _ :: t => findSubAux pat t (i + 1)

/-- `hay.find(pat)` as used in `detect_embedded`. -/
def findSub (hay pat : List Nat) : Option Nat := findSubAux pat hay 0

/-- Model of `detect_embedded(data)`: tries each signature in table order
and returns the first one that occurs anywhere, with its offset. -/
def detect_embedded (data : List Nat) : Option (List Nat × Nat) :=
  go magicTable
where
  go : List (List Nat × List Nat) → Option (List Nat × Nat)
    | [] => none
    | (magic, ext) :: rest =>
      match findSub data magic with
      | some idx => some (ext, idx)
      | none => go rest

/-- Model of `maybe_convert(out_dir, ext, data, name_tag)`: the list of
converted files it writes (zero or one). -/
def maybe_convert (ext data name_tag : List Nat) : List OutFile :=
  if ext = sCodes "sound" then
    if (sCodes "OggS").isPrefixOf data then
      [write_converted (name_tag ++ sCodes ".ogg") (sCodes "sound") data]
    else if (sCodes "RIFF").isPrefixOf data then
      [write_converted (name_tag ++ sCodes ".wav") (sCodes "sound") data]
    else []
  else if ext = sCodes "texture" then
    if (sCodes "DDS ").isPrefixOf data then
      [write_converted (name_tag ++ sCodes ".dds") (sCodes "texture") data]
    else []
  else if ext = sCodes "jimg_texture" then
    if data.length > 6 then
      let payload := data.drop 4
      if ([0xFF, 0xD8, 0xFF]).isPrefixOf payload then
        [write_converted (name_tag ++ sCodes ".jpg") (sCodes "jimg_texture") payload]
      else []
    else []
  else if ext = sCodes "gscene" then
    match detect_embedded data with
    | some (emb_ext, off) =>
      [write_converted (name_tag ++ sCodes "." ++ emb_ext) (sCodes "gscene") (data.drop off)]
    | none => []
  else []

/-- One 20-byte record of the entry table
(`struct.unpack("<5I", f.read(20))`). -/
structure Entry where
  offset : Nat
  size : Nat
  ext_id : Nat
  group_id : Nat
  method_id : Nat
  deriving Repr, DecidableEq

/-- Diagnostics printed by the script, each identifying the condition and
(for per-entry warnings) the entry index. -/
inductive Warn where
  | metaSizeMismatch
  | badIndices (i : Nat)
  | shortRead (i : Nat)
  | blobTooSmall (i : Nat)
  | zlibError (i : Nat)
  | entrySizeMismatch (i : Nat)
  deriving Repr, DecidableEq

/-- The entry index a per-entry warning identifies. -/
def Warn.entryIdx : Warn → Option Nat
  | .metaSizeMismatch => none
  | .badIndices i => some i
  | .shortRead i => some i
  | .blobTooSmall i => some i
  | .zlibError i => some i
  | .entrySizeMismatch i => some i

/-- Model of `name_counts.get(base_name, 0)` on the dict, kept as an
association list. -/
def lookupCount : List (List Nat × Nat) → List Nat → Nat
  | [], _ => 0
  | p :: rest, k => if p.1 = k then p.2 else lookupCount rest k

/-- Model of `name_counts[base_name] = v`. -/
def setCount (m : List (List Nat × Nat)) (k : List Nat) (v : Nat) :
    List (List Nat × Nat) :=
  match m with
  | [] => [(k, v)]
  | p :: rest => if p.1 = k then (k, v) :: rest else p :: setCount rest k v

/-- Decimal digit code points of `n` (`str(n)`). -/
def natDigits (n : Nat) : List Nat := (Nat.toDigits 10 n).map Char.toNat

/-- Model of the format specifier `{count:02d}`: decimal, zero-padded to
at least two digits. -/
def pad2 (n : Nat) : List Nat :=
  let d := natDigits n
  if d.length < 2 then 48 :: d else d

/-- State threaded through the entry loop of `unpack`: the `name_counts`
dict, the files written so far (in write order), and the warnings printed
so far (in print order). -/
structure LoopState where
  name_counts : List (List Nat × Nat)
  outputs : List OutFile
  warns : List Warn
  deriving Repr, DecidableEq

/-- The body of the entry loop of `unpack` for entry `e` at index `i`. -/
def processEntry (inflate : List Nat → Option (List Nat)) (do_convert : Bool)
    (fileData : List Nat) (exts groups : List (List Nat))
    (s : LoopState) (i : Nat) (e : Entry) : LoopState :=
  if e.ext_id ≥ exts.length ∨ e.group_id ≥ groups.length then
    { s with warns := s.warns ++ [.badIndices i] }
  else
    let ext := exts.getD e.ext_id []
    let group := groups.getD e.group_id []
    let base_name := group ++ sCodes "." ++ ext
    let count := lookupCount s.name_counts base_name + 1
    let counts := setCount s.name_counts base_name count
    let name_tag := if count = 1 then group else group ++ sCodes "_" ++ pad2 count
    let fname := if count = 1 then base_name else name_tag ++ sCodes "." ++ ext
    let out_path := [ext, fname]
    let blob := fread fileData e.offset e.size
    if blob.length ≠ e.size then
      { s with name_counts := counts, warns := s.warns ++ [.shortRead i] }
    else if e.method_id = 1 then
      if blob.length < 4 then
        { s with name_counts := counts, warns := s.warns ++ [.blobTooSmall i] }
      else
        let expected_size := le32 (blob.take 4)
        match inflate (blob.drop 4) with
        | none =>
          { s with name_counts := counts, warns := s.warns ++ [.zlibError i] }
        | some d =>
          { name_counts := counts,
            outputs := s.outputs ++ [⟨out_path, d⟩] ++
              (if do_convert then maybe_convert ext d name_tag else []),
            warns := s.warns ++
              (if d.length ≠ expected_size then [.entrySizeMismatch i] else []) }
    else
      { name_counts := counts,
        outputs := s.outputs ++ [⟨out_path, blob⟩] ++
          (if do_convert then maybe_convert ext blob name_tag else []),
        warns := s.warns }

/-- The entry loop of `unpack` (`for i, entry in enumerate(entries)`). -/
def unpackLoop (inflate : List Nat → Option (List Nat)) (do_convert : Bool)
    (fileData : List Nat) (exts groups : List (List Nat)) :
    LoopState → Nat → List Entry → LoopState
  | s, _, [] => s
  | s, i, e :: rest =>
    unpackLoop inflate do_convert fileData exts groups
      (processEntry inflate do_convert fileData exts groups s i e) (i + 1) rest

/-- Reads `n` 20-byte entry records starting at `pos`; `none` models the
`struct.error` raised when `f.read(20)` comes back short. -/
def readEntries (data : List Nat) : Nat → Nat → Option (List Entry × Nat)
  | pos, 0 => some ([], pos)
  | pos, n + 1 =>
    let bs := fread data pos 20
    if bs.length = 20 then
      let e : Entry :=
        { offset := le32 (bs.take 4),
          size := le32 ((bs.drop 4).take 4),
          ext_id := le32 ((bs.drop 8).take 4),
          group_id := le32 ((bs.drop 12).take 4),
          method_id := le32 ((bs.drop 16).take 4) }
      match readEntries data (pos + 20) (n) with
      | none => none
      | some (es, p2) => some (e :: es, p2)
    else none

/-- The result of a successful `unpack` run: every file written under the
output root (in write order) and every warning printed. -/
structure UnpackResult where
  files : List OutFile
  warns : List Warn
  deriving Repr, DecidableEq

/-- Model of `unpack(data_path, out_dir, do_convert)`;
`Except.error` models a fatal exception escaping `unpack`, before which no
output file has been written. -/
def unpack (inflate : List Nat → Option (List Nat)) (fileData : List Nat)
    (do_convert : Bool) : Except (List Nat) UnpackResult :=
  if fileData.take 4 ≠ sCodes "RDFZ" then .error (sCodes "bad magic")
  else
    match read_len_str fileData 4 with
    | none => .error (sCodes "unexpected EOF")
    | some (_, p1) =>
      match read_u32 fileData p1 with
      | none => .error (sCodes "unexpected EOF")
      | some (meta_comp_size, p2) =>
        let meta_comp := fread fileData p2 meta_comp_size
        if meta_comp.length ≠ meta_comp_size then
          .error (sCodes "unexpected EOF in meta_comp")
        else
          match parse_meta inflate meta_comp with
          | none => .error (sCodes "parse_meta failed")
          | some meta =>
            match read_u32 fileData (p2 + meta_comp_size) with
            | none => .error (sCodes "unexpected EOF")
            | some (entry_count, p3) =>
              match readEntries fileData p3 entry_count with
              | none => .error (sCodes "unexpected EOF in entries")
              | some (entries, _) =>
                let init : LoopState :=
                  ⟨[], [], if meta.warned then [.metaSizeMismatch] else []⟩
                let st := unpackLoop inflate do_convert fileData
                  meta.exts meta.groups init 0 entries
                .ok ⟨st.outputs, st.warns⟩

/-- The files a run writes: none when the run failed fatally. -/
def runFiles : Except (List Nat) UnpackResult → List OutFile
  | .error _ => []
  | .ok r => r.files

instance : DecidableEq (Except (List Nat) UnpackResult) := fun a b =>
  match a, b with
  | .ok x, .ok y =>
    if h : x = y then isTrue (by rw [h])
    else isFalse (by intro hc; cases hc; exact h rfl)
  | .error x, .error y =>
    if h : x = y then isTrue (by rw [h])
    else isFalse (by intro hc; cases hc; exact h rfl)
  | .ok _, .error _ => isFalse (by intro hc; cases hc)
  | .error _, .ok _ => isFalse (by intro hc; cases hc)

/-! Derived notions used to state properties of the entry loop. -/

/-- `pat` occurs in `hay` at byte offset `i`. -/
def occursAt (hay pat : List Nat) (i : Nat) : Prop :=
  pat.isPrefixOf (hay.drop i) = true

instance (hay pat : List Nat) (i : Nat) : Decidable (occursAt hay pat i) := by
  unfold occursAt; infer_instance

/-- The entry passes the index-range check of the loop (line 108). -/
def entryOK (exts groups : List (List Nat)) (e : Entry) : Prop :=
  e.ext_id < exts.length ∧ e.group_id < groups.length

instance (exts groups : List (List Nat)) (e : Entry) :
    Decidable (entryOK exts groups e) := by
  unfold entryOK; infer_instance

/-- The dedup-counter key of an entry, `f"{group}.{ext}"`. -/
def baseOf (exts groups : List (List Nat)) (e : Entry) : List Nat :=
  groups.getD e.group_id [] ++ sCodes "." ++ exts.getD e.ext_id []

/-- The payload (the `data` variable of the loop) an entry yields, `none`
on the soft failures that follow the index check: short read, a
`methodId = 1` block shorter than 4 bytes, or a decompression error. -/
def extractPayload (inflate : List Nat → Option (List Nat))
    (fileData : List Nat) (e : Entry) : Option (List Nat) :=
  let blob := fread fileData e.offset e.size
  if blob.length ≠ e.size then none
  else if e.method_id = 1 then
    if blob.length < 4 then none
    else inflate (blob.drop 4)
  else some blob

/-- The `name_tag` the loop derives for the `n`-th occurrence of a
group name (line 116). -/
def nameTagFor (group : List Nat) (n : Nat) : List Nat :=
  if n = 1 then group else group ++ sCodes "_" ++ pad2 n

/-- The file name the loop derives for the `n`-th occurrence of a
group/extension pair (line 117). -/
def fnameFor (group ext : List Nat) (n : Nat) : List Nat :=
  if n = 1 then group ++ sCodes "." ++ ext
  else nameTagFor group n ++ sCodes "." ++ ext

/-- The positional field parse of `parse_meta` over the decompressed
bytes: `unk0`, `unk1`, `method_name`, extension table, group table, read
sequentially from position 0. -/
def metaFields (meta : List Nat) :
    Option (Nat × Nat × List Nat × List (List Nat) × List (List Nat)) :=
  match read_u32 meta 0 with
  | none => none
  | some (unk0, p0) =>
    match read_u32 meta p0 with
    | none => none
    | some (unk1, p1) =>
      match read_len_str meta p1 with
      | none => none
      | some (mname, p2) =>
        match read_u32 meta p2 with
        | none => none
        | some (ext_count, p3) =>
          match readStrings meta p3 ext_count with
          | none => none
          | some (exts, p4) =>
            match read_u32 meta p4 with
            | none => none
            | some (group_count, p5) =>
              match readStrings meta p5 group_count with
              | none => none
              | some (groups, _) => some (unk0, unk1, mname, exts, groups)

/-! Concrete data used by witnesses: a decompressor instance and a small
three-entry archive whose entries all map to group "g", extension "e". -/

/-- A decompressor instance that returns its input unchanged (a legitimate
instantiation of the abstract `inflate` parameter). -/
def idInflate : List Nat → Option (List Nat) := fun l => some l

/-- Decompressed metadata declaring one extension "e" and one group "g". -/
def metaBytesEG : List Nat :=
  [0, 0, 0, 0] ++ [0, 0, 0, 0] ++ [0, 0, 0, 0] ++
  [1, 0, 0, 0] ++ [1, 0, 0, 0, 101] ++ [1, 0, 0, 0] ++ [1, 0, 0, 0, 103]

/-- An archive with three stored entries, all named `g.e`, whose payloads
are the single bytes 65, 66, 67. -/
def archiveABC : List Nat :=
  sCodes "RDFZ" ++ [0, 0, 0, 0] ++ [34, 0, 0, 0] ++
  ([30, 0, 0, 0] ++ metaBytesEG) ++ [3, 0, 0, 0] ++
  [110, 0, 0, 0, 1, 0, 0, 0, 0, 0, 0, 0, 0, 0, 0, 0, 0, 0, 0, 0] ++
  [111, 0, 0, 0, 1, 0, 0, 0, 0, 0, 0, 0, 0, 0, 0, 0, 0, 0, 0, 0] ++
  [112, 0, 0, 0, 1, 0, 0, 0, 0, 0, 0, 0, 0, 0, 0, 0, 0, 0, 0, 0] ++
  [65, 66, 67]

/-! ### Helper lemmas -/

theorem lookupCount_setCount_self (m : List (List Nat × Nat)) (k : List Nat)
    (v : Nat) : lookupCount (setCount m k v) k = v := by
  induction m with
  | nil => simp [setCount, lookupCount]
  | cons p rest ih =>
    by_cases h : p.1 = k <;> simp [setCount, lookupCount, h, ih]

theorem lookupCount_setCount_ne (m : List (List Nat × Nat)) (k k' : List Nat)
    (v : Nat) (h : k' ≠ k) :
    lookupCount (setCount m k v) k' = lookupCount m k' := by
  induction m with
  | nil =>
    simp only [setCount, lookupCount]
    rw [if_neg (fun hc => h hc.symm)]
  | cons p rest ih =>
    by_cases hp : p.1 = k
    · simp [setCount, hp, lookupCount, Ne.symm h]
    · simp only [setCount, if_neg hp, lookupCount]
      by_cases hp2 : p.1 = k' <;> simp [hp2, ih]

/-- The bad-indices branch of the loop body (line 108). -/
theorem processEntry_bad (inflate : List Nat → Option (List Nat))
    (dc : Bool) (fd : List Nat) (exts groups : List (List Nat))
    (s : LoopState) (i : Nat) (e : Entry)
    (h : ¬ entryOK exts groups e) :
    processEntry inflate dc fd exts groups s i e =
      { s with warns := s.warns ++ [.badIndices i] } := by
  have h2 : e.ext_id ≥ exts.length ∨ e.group_id ≥ groups.length := by
    unfold entryOK at h; omega
  simp only [processEntry, if_pos h2]

/-- After the index check, the loop body always records the bumped
occurrence counter, whatever happens to the entry afterwards
(lines 114-115 run before the block is read). -/
theorem processEntry_counts (inflate : List Nat → Option (List Nat))
    (dc : Bool) (fd : List Nat) (exts groups : List (List Nat))
    (s : LoopState) (i : Nat) (e : Entry)
    (h : entryOK exts groups e) :
    (processEntry inflate dc fd exts groups s i e).name_counts =
      setCount s.name_counts (baseOf exts groups e)
        (lookupCount s.name_counts (baseOf exts groups e) + 1) := by
  have h2 : ¬ (e.ext_id ≥ exts.length ∨ e.group_id ≥ groups.length) := by
    unfold entryOK at h; omega
  simp only [processEntry, if_neg h2, baseOf]
  split
  · rfl
  · split
    · split
      · rfl
      · split <;> rfl
    · rfl

/-- The short-read branch of the loop body (lines 121-123). -/
theorem processEntry_shortRead (inflate : List Nat → Option (List Nat))
    (dc : Bool) (fd : List Nat) (exts groups : List (List Nat))
    (s : LoopState) (i : Nat) (e : Entry)
    (h : entryOK exts groups e)
    (hr : (fread fd e.offset e.size).length ≠ e.size) :
    processEntry inflate dc fd exts groups s i e =
      { s with
        name_counts := setCount s.name_counts (baseOf exts groups e)
          (lookupCount s.name_counts (baseOf exts groups e) + 1),
        warns := s.warns ++ [.shortRead i] } := by
  have h2 : ¬ (e.ext_id ≥ exts.length ∨ e.group_id ≥ groups.length) := by
    unfold entryOK at h; omega
  simp only [processEntry, if_neg h2, if_pos hr, baseOf]

/-- The blob-too-small branch of the loop body (lines 125-127). -/
theorem processEntry_blobTooSmall (inflate : List Nat → Option (List Nat))
    (dc : Bool) (fd : List Nat) (exts groups : List (List Nat))
    (s : LoopState) (i : Nat) (e : Entry)
    (h : entryOK exts groups e)
    (hr : (fread fd e.offset e.size).length = e.size)
    (hm : e.method_id = 1)
    (hsmall : (fread fd e.offset e.size).length < 4) :
    processEntry inflate dc fd exts groups s i e =
      { s with
        name_counts := setCount s.name_counts (baseOf exts groups e)
          (lookupCount s.name_counts (baseOf exts groups e) + 1),
        warns := s.warns ++ [.blobTooSmall i] } := by
  have h2 : ¬ (e.ext_id ≥ exts.length ∨ e.group_id ≥ groups.length) := by
    unfold entryOK at h; omega
  simp only [processEntry, if_neg h2, if_neg (not_not_intro hr), if_pos hm,
    if_pos hsmall, baseOf]

/-- The zlib-error branch of the loop body (lines 129-133). -/
theorem processEntry_zlibError (inflate : List Nat → Option (List Nat))
    (dc : Bool) (fd : List Nat) (exts groups : List (List Nat))
    (s : LoopState) (i : Nat) (e : Entry)
    (h : entryOK exts groups e)
    (hr : (fread fd e.offset e.size).length = e.size)
    (hm : e.method_id = 1)
    (hbig : ¬ (fread fd e.offset e.size).length < 4)
    (hz : inflate ((fread fd e.offset e.size).drop 4) = none) :
    processEntry inflate dc fd exts groups s i e =
      { s with
        name_counts := setCount s.name_counts (baseOf exts groups e)
          (lookupCount s.name_counts (baseOf exts groups e) + 1),
        warns := s.warns ++ [.zlibError i] } := by
  have h2 : ¬ (e.ext_id ≥ exts.length ∨ e.group_id ≥ groups.length) := by
    unfold entryOK at h; omega
  simp only [processEntry, if_neg h2, if_neg (not_not_intro hr), if_pos hm,
    if_neg hbig, hz, baseOf]

/-- The successful `methodId = 1` path of the loop body
(lines 124-135 and 138-141). -/
theorem processEntry_method1 (inflate : List Nat → Option (List Nat))
    (dc : Bool) (fd : List Nat) (exts groups : List (List Nat))
    (s : LoopState) (i : Nat) (e : Entry) (d : List Nat)
    (h : entryOK exts groups e)
    (hr : (fread fd e.offset e.size).length = e.size)
    (hm : e.method_id = 1)
    (hbig : ¬ (fread fd e.offset e.size).length < 4)
    (hz : inflate ((fread fd e.offset e.size).drop 4) = some d) :
    processEntry inflate dc fd exts groups s i e =
      { name_counts := setCount s.name_counts (baseOf exts groups e)
          (lookupCount s.name_counts (baseOf exts groups e) + 1),
        outputs := s.outputs ++
          [⟨[exts.getD e.ext_id [],
             fnameFor (groups.getD e.group_id []) (exts.getD e.ext_id [])
               (lookupCount s.name_counts (baseOf exts groups e) + 1)], d⟩] ++
          (if dc then
            maybe_convert (exts.getD e.ext_id []) d
              (nameTagFor (groups.getD e.group_id [])
                (lookupCount s.name_counts (baseOf exts groups e) + 1))
          else []),
        warns := s.warns ++
          (if d.length ≠ le32 ((fread fd e.offset e.size).take 4) then
            [.entrySizeMismatch i]
          else []) } := by
  have h2 : ¬ (e.ext_id ≥ exts.length ∨ e.group_id ≥ groups.length) := by
    unfold entryOK at h; omega
  simp only [processEntry, if_neg h2, if_neg (not_not_intro hr), if_pos hm,
    if_neg hbig, hz, baseOf, fnameFor, nameTagFor]

/-- The stored/verbatim path of the loop body (lines 136-141). -/
theorem processEntry_verbatim (inflate : List Nat → Option (List Nat))
    (dc : Bool) (fd : List Nat) (exts groups : List (List Nat))
    (s : LoopState) (i : Nat) (e : Entry)
    (h : entryOK exts groups e)
    (hr : (fread fd e.offset e.size).length = e.size)
    (hm : e.method_id ≠ 1) :
    processEntry inflate dc fd exts groups s i e =
      { name_counts := setCount s.name_counts (baseOf exts groups e)
          (lookupCount s.name_counts (baseOf exts groups e) + 1),
        outputs := s.outputs ++
          [⟨[exts.getD e.ext_id [],
             fnameFor (groups.getD e.group_id []) (exts.getD e.ext_id [])
               (lookupCount s.name_counts (baseOf exts groups e) + 1)],
            fread fd e.offset e.size⟩] ++
          (if dc then
            maybe_convert (exts.getD e.ext_id []) (fread fd e.offset e.size)
              (nameTagFor (groups.getD e.group_id [])
                (lookupCount s.name_counts (baseOf exts groups e) + 1))
          else []),
        warns := s.warns } := by
  have h2 : ¬ (e.ext_id ≥ exts.length ∨ e.group_id ≥ groups.length) := by
    unfold entryOK at h; omega
  simp only [processEntry, if_neg h2, if_neg (not_not_intro hr), if_neg hm,
    baseOf, fnameFor, nameTagFor]

/-- An entry that fails the index check leaves the counter untouched. -/
theorem processEntry_counts_bad (inflate : List Nat → Option (List Nat))
    (dc : Bool) (fd : List Nat) (exts groups : List (List Nat))
    (s : LoopState) (i : Nat) (e : Entry)
    (h : ¬ entryOK exts groups e) :
    (processEntry inflate dc fd exts groups s i e).name_counts =
      s.name_counts := by
  rw [processEntry_bad inflate dc fd exts groups s i e h]

/-- `findSubAux` returns the first match at or after the running index. -/
theorem findSubAux_some (pat : List Nat) :
    ∀ (hay : List Nat) (i j : Nat), findSubAux pat hay i = some j →
      i ≤ j ∧ occursAt hay pat (j - i) ∧
        ∀ l, l < j - i → ¬ occursAt hay pat l := by
  intro hay
  induction hay with
  | nil =>
    intro i j hfind
    unfold findSubAux at hfind
    by_cases hp : pat.isPrefixOf ([] : List Nat) = true
    · rw [if_pos hp] at hfind
      cases hfind
      refine ⟨le_refl _, ?_, ?_⟩
      · simpa [occursAt] using hp
      · omega
    · rw [if_neg hp] at hfind
      cases hfind
  | cons a t ih =>
    intro i j hfind
    unfold findSubAux at hfind
    by_cases hp : pat.isPrefixOf (a :: t) = true
    · rw [if_pos hp] at hfind
      cases hfind
      refine ⟨le_refl _, ?_, ?_⟩
      · simpa [occursAt] using hp
      · omega
    · rw [if_neg hp] at hfind
      obtain ⟨h1, h2, h3⟩ := ih (i + 1) j hfind
      refine ⟨by omega, ?_, ?_⟩
      · have hdrop : (a :: t).drop (j - i) = t.drop (j - (i + 1)) := by
          have : j - i = (j - (i + 1)) + 1 := by omega
          rw [this, List.drop_succ_cons]
        unfold occursAt
        rw [hdrop]
        exact h2
      · intro l hl
        match l with
        | 0 => simpa [occursAt] using hp
        | l' + 1 =>
          have : l' < j - (i + 1) := by omega
          unfold occursAt
          rw [List.drop_succ_cons]
          exact h3 l' this

/-- `findSubAux` returns `none` only when there is no match at all. -/
theorem findSubAux_none (pat : List Nat) :
    ∀ (hay : List Nat) (i : Nat), findSubAux pat hay i = none →
      ∀ l, ¬ occursAt hay pat l := by
  intro hay
  induction hay with
  | nil =>
    intro i hfind l
    unfold findSubAux at hfind
    by_cases hp : pat.isPrefixOf ([] : List Nat) = true
    · rw [if_pos hp] at hfind; cases hfind
    · simp only [occursAt, List.drop_nil]
      exact fun hc => hp hc
  | cons a t ih =>
    intro i hfind l
    unfold findSubAux at hfind
    by_cases hp : pat.isPrefixOf (a :: t) = true
    · rw [if_pos hp] at hfind; cases hfind
    · rw [if_neg hp] at hfind
      match l with
      | 0 => simpa [occursAt] using hp
      | l' + 1 =>
        unfold occursAt
        rw [List.drop_succ_cons]
        exact ih (i + 1) hfind l'

/-- `hay.find(pat)` finds the earliest occurrence of `pat`. -/
theorem findSub_some (hay pat : List Nat) (j : Nat)
    (h : findSub hay pat = some j) :
    occursAt hay pat j ∧ ∀ l, l < j → ¬ occursAt hay pat l := by
  obtain ⟨_, h2, h3⟩ := findSubAux_some pat hay 0 j h
  simpa using ⟨h2, h3⟩

/-- `hay.find(pat) = -1` means `pat` occurs nowhere in `hay`. -/
theorem findSub_none (hay pat : List Nat) (h : findSub hay pat = none) :
    ∀ l, ¬ occursAt hay pat l :=
  findSubAux_none pat hay 0 h

/-- `detect_embedded` walks the signature table in order and reports the
first signature with a match, at that signature's earliest offset. -/
theorem detect_go_some (data : List Nat) :
    ∀ (L : List (List Nat × List Nat)) (e : List Nat) (i : Nat),
      detect_embedded.go data L = some (e, i) →
      ∃ pre m post, L = pre ++ (m, e) :: post ∧ findSub data m = some i ∧
        ∀ p ∈ pre, findSub data p.1 = none := by
  intro L
  induction L with
  | nil => intro e i h; cases h
  | cons hd tl ih =>
    intro e i h
    obtain ⟨magic, ext⟩ := hd
    unfold detect_embedded.go at h
    cases hfind : findSub data magic with
    | some idx =>
      rw [hfind] at h
      cases h
      exact ⟨[], magic, tl, rfl, hfind, by simp⟩
    | none =>
      rw [hfind] at h
      obtain ⟨pre, m, post, heq, hm, hpre⟩ := ih e i h
      refine ⟨(magic, ext) :: pre, m, post, by rw [heq]; rfl, hm, ?_⟩
      intro p hp
      rcases List.mem_cons.mp hp with hp1 | hp2
      · rw [hp1]; exact hfind
      · exact hpre p hp2

/-- The counter bump of one loop iteration, seen through `lookupCount`. -/
theorem lookupCount_processEntry (inflate : List Nat → Option (List Nat))
    (dc : Bool) (fd : List Nat) (exts groups : List (List Nat))
    (s : LoopState) (i : Nat) (e : Entry) (b : List Nat) :
    lookupCount (processEntry inflate dc fd exts groups s i e).name_counts b =
      lookupCount s.name_counts b +
        (if entryOK exts groups e ∧ baseOf exts groups e = b then 1 else 0) := by
  by_cases hok : entryOK exts groups e
  · rw [processEntry_counts inflate dc fd exts groups s i e hok]
    by_cases hb : baseOf exts groups e = b
    · subst hb
      rw [lookupCount_setCount_self, if_pos ⟨hok, rfl⟩]
    · rw [lookupCount_setCount_ne _ _ _ _ (fun hc => hb hc.symm),
        if_neg (fun hc => hb hc.2)]
      omega
  · rw [processEntry_counts_bad inflate dc fd exts groups s i e hok,
      if_neg (fun hc => hok hc.1)]
    omega

/-- Across the loop, the counter for base name `b` counts exactly the
entries that passed the index check and map to `b`. -/
theorem lookupCount_unpackLoop (inflate : List Nat → Option (List Nat))
    (dc : Bool) (fd : List Nat) (exts groups : List (List Nat)) (b : List Nat) :
    ∀ (es : List Entry) (s : LoopState) (i : Nat),
      lookupCount (unpackLoop inflate dc fd exts groups s i es).name_counts b =
        lookupCount s.name_counts b +
          es.countP
            (fun a => decide (entryOK exts groups a ∧ baseOf exts groups a = b)) := by
  intro es
  induction es with
  | nil => intro s i; simp [unpackLoop]
  | cons e rest ih =>
    intro s i
    unfold unpackLoop
    rw [ih, lookupCount_processEntry]
    rw [List.countP_cons]
    by_cases hc : entryOK exts groups e ∧ baseOf exts groups e = b
    · rw [if_pos hc]
      simp [hc]
      omega
    · rw [if_neg hc]
      simp [hc]

/-- Outputs only grow along the loop, and each iteration appends its own
files at the end. -/
theorem unpackLoop_outputs_cons (inflate : List Nat → Option (List Nat))
    (dc : Bool) (fd : List Nat) (exts groups : List (List Nat))
    (s : LoopState) (i : Nat) (e : Entry) (rest : List Entry) :
    unpackLoop inflate dc fd exts groups s i (e :: rest) =
      unpackLoop inflate dc fd exts groups
        (processEntry inflate dc fd exts groups s i e) (i + 1) rest := rfl

/-- Every file `maybe_convert` writes sits at
`_converted/{category}/{name_tag}.{recovered extension}`, where the
directory component is the category argument itself and the recovered
extension is one of the sniffer's known extensions. -/
theorem maybe_convert_shape (ext data tag : List Nat) (o : OutFile)
    (h : o ∈ maybe_convert ext data tag) :
    ∃ recExt, recExt ∈ magicTable.map Prod.snd ∧
      o.path = [sCodes "_converted", ext, tag ++ sCodes "." ++ recExt] := by
  unfold maybe_convert at h
  by_cases h1 : ext = sCodes "sound"
  · rw [if_pos h1] at h
    by_cases h2 : (sCodes "OggS").isPrefixOf data = true
    · rw [if_pos h2] at h
      rcases List.mem_singleton.mp h with rfl
      refine ⟨sCodes "ogg", by decide, ?_⟩
      rw [h1, write_converted]
      simp [List.append_assoc]
      decide
    · rw [if_neg h2] at h
      by_cases h3 : (sCodes "RIFF").isPrefixOf data = true
      · rw [if_pos h3] at h
        rcases List.mem_singleton.mp h with rfl
        refine ⟨sCodes "wav", by decide, ?_⟩
        rw [h1, write_converted]
        simp [List.append_assoc]
        decide
      · rw [if_neg h3] at h
        cases h
  · rw [if_neg h1] at h
    by_cases h2 : ext = sCodes "texture"
    · rw [if_pos h2] at h
      by_cases h3 : (sCodes "DDS ").isPrefixOf data = true
      · rw [if_pos h3] at h
        rcases List.mem_singleton.mp h with rfl
        refine ⟨sCodes "dds", by decide, ?_⟩
        rw [h2, write_converted]
        simp [List.append_assoc]
        decide
      · rw [if_neg h3] at h
        cases h
    · rw [if_neg h2] at h
      by_cases h3 : ext = sCodes "jimg_texture"
      · rw [if_pos h3] at h
        by_cases h4 : data.length > 6
        · rw [if_pos h4] at h
          by_cases h5 : ([0xFF, 0xD8, 0xFF]).isPrefixOf (data.drop 4) = true
          · rw [if_pos h5] at h
            rcases List.mem_singleton.mp h with rfl
            refine ⟨sCodes "jpg", by decide, ?_⟩
            rw [h3, write_converted]
            simp [List.append_assoc]
            decide
          · rw [if_neg h5] at h
            cases h
        · rw [if_neg h4] at h
          cases h
      · rw [if_neg h3] at h
        by_cases h4 : ext = sCodes "gscene"
        · rw [if_pos h4] at h
          cases hdet : detect_embedded data with
          | none => rw [hdet] at h; cases h
          | some v =>
            obtain ⟨emb_ext, off⟩ := v
            rw [hdet] at h
            rcases List.mem_singleton.mp h with rfl
            obtain ⟨pre, m, post, heq, -, -⟩ :=
              detect_go_some data magicTable emb_ext off hdet
            refine ⟨emb_ext, ?_, ?_⟩
            · rw [heq]
              simp
            · rw [h4, write_converted]
        · rw [if_neg h4] at h
          cases h

/-- Claim C7: an input whose first 4 bytes are not `RDFZ` makes `unpack`
fail fatally with the bad-magic error, and the failed run writes no
output file. -/
theorem C7_magic_reject (inflate : List Nat → Option (List Nat))
    (fileData : List Nat) (dc : Bool)
    (h : fileData.take 4 ≠ sCodes "RDFZ") :
    unpack inflate fileData dc = .error (sCodes "bad magic") ∧
    runFiles (unpack inflate fileData dc) = [] := by
  have he : unpack inflate fileData dc = .error (sCodes "bad magic") := by
    unfold unpack
    rw [if_pos h]
  exact ⟨he, by rw [he]; rfl⟩

/-- Witness for C7 on the concrete input `XXXX...`. -/
theorem C7_magic_reject_witness :
    unpack idInflate (sCodes "XXXX") true = .error (sCodes "bad magic") ∧
    runFiles (unpack idInflate (sCodes "XXXX") true) = [] :=
  C7_magic_reject idInflate (sCodes "XXXX") true (by decide)

/-- Claim C9: `unpack` is deterministic.  The embedding makes the run a
pure function of the archive bytes, the decompressor, and the conversion
flag, with no other input: two runs with the same arguments produce the
same files (paths and bytes, converted artifacts included) and the same
diagnostics, which is the claim for two fresh empty output roots. -/
theorem C9_deterministic (inflate : List Nat → Option (List Nat))
    (fileData : List Nat) (dc : Bool)
    (r1 r2 : Except (List Nat) UnpackResult)
    (h1 : r1 = unpack inflate fileData dc)
    (h2 : r2 = unpack inflate fileData dc) : r1 = r2 :=
  h1.trans h2.symm

/-- Witness for C9: two runs over the concrete three-entry archive. -/
theorem C9_deterministic_witness :
    unpack idInflate archiveABC true = unpack idInflate archiveABC true :=
  C9_deterministic idInflate archiveABC true _ _ rfl rfl

/-- Claim C8: `read_len_str` reads a u32 length `L` (failing exactly when
fewer than 4 bytes remain); `L = 0` yields the empty string with no
further read (the cursor moves only past the length); otherwise it reads
exactly `L` bytes, decoded by the total UTF-8-with-replacement decoder
(so bad text never fails), and it fails exactly when fewer than `L` bytes
remain. -/
theorem C8_read_len_str (data : List Nat) (pos : Nat) :
    (read_u32 data pos = none ↔ (data.drop pos).length < 4) ∧
    (read_u32 data pos = none → read_len_str data pos = none) ∧
    (∀ ln p1, read_u32 data pos = some (ln, p1) →
      p1 = pos + 4 ∧
      (ln = 0 → read_len_str data pos = some ([], p1)) ∧
      (ln ≠ 0 → ln ≤ (data.drop p1).length →
        read_len_str data pos =
          some (utf8DecodeReplace (fread data p1 ln), p1 + ln)) ∧
      (ln ≠ 0 → (data.drop p1).length < ln → read_len_str data pos = none)) := by
  refine ⟨?_, ?_, ?_⟩
  · unfold read_u32 fread
    constructor
    · intro h
      by_cases hl : ((data.drop pos).take 4).length = 4
      · rw [if_pos hl] at h
        cases h
      · rw [List.length_take] at hl
        omega
    · intro h
      have hl : ((data.drop pos).take 4).length ≠ 4 := by
        rw [List.length_take]
        omega
      rw [if_neg hl]
  · intro h
    unfold read_len_str
    rw [h]
  · intro ln p1 h
    have hp1 : p1 = pos + 4 := by
      unfold read_u32 at h
      by_cases hl : (fread data pos 4).length = 4
      · rw [if_pos hl] at h
        cases h
        rfl
      · rw [if_neg hl] at h
        cases h
    refine ⟨hp1, ?_, ?_, ?_⟩
    · intro h0
      simp [read_len_str, h, h0]
    · intro h0 hl
      have hlen : (fread data p1 ln).length = ln := by
        unfold fread
        rw [List.length_take]
        omega
      simp [read_len_str, h, h0, hlen]
    · intro h0 hl
      have hlen : ¬ (fread data p1 ln).length = ln := by
        unfold fread
        rw [List.length_take]
        omega
      simp [read_len_str, h, h0, hlen]

/-- Witness for C8 on a concrete 2-byte string read. -/
theorem C8_read_len_str_witness :
    read_len_str [2, 0, 0, 0, 65, 66] 0 =
      some (utf8DecodeReplace (fread [2, 0, 0, 0, 65, 66] 4 2), 6) :=
  (((C8_read_len_str [2, 0, 0, 0, 65, 66] 0).2.2 2 4 (by decide)).2.2.1
    (by decide) (by decide))

/-- Counterexample to claim C2: a "sound" entry whose payload starts with
`RIFF` is written under `_converted/sound/`, the entry's category name,
not under `_converted/wav/`, the recovered format's extension. -/
theorem C2_counterexample :
    (maybe_convert (sCodes "sound") (sCodes "RIFFdata") (sCodes "g")).map
        OutFile.path =
      [[sCodes "_converted", sCodes "sound", sCodes "g.wav"]] ∧
    sCodes "sound" ≠ sCodes "wav" := by decide

/-- Claim C2 as amended: every converted artifact is written under
`_converted/{category}/{name}.{recoveredExtension}` — the directory
component is the entry's category name, and the recovered format's
extension appears as the file-name suffix instead. -/
theorem C2_amended (ext data tag : List Nat) (o : OutFile)
    (h : o ∈ maybe_convert ext data tag) :
    ∃ recExt, recExt ∈ magicTable.map Prod.snd ∧
      o.path = [sCodes "_converted", ext, tag ++ sCodes "." ++ recExt] :=
  maybe_convert_shape ext data tag o h

/-- Witness for C2 on the concrete "sound"/RIFF conversion. -/
theorem C2_amended_witness :
    ∃ recExt, recExt ∈ magicTable.map Prod.snd ∧
      (write_converted (sCodes "g" ++ sCodes ".wav") (sCodes "sound")
          (sCodes "RIFFdata")).path =
        [sCodes "_converted", sCodes "sound",
          sCodes "g" ++ sCodes "." ++ recExt] :=
  C2_amended (sCodes "sound") (sCodes "RIFFdata") (sCodes "g")
    (write_converted (sCodes "g" ++ sCodes ".wav") (sCodes "sound")
      (sCodes "RIFFdata")) (by decide)

/-- Counterexample to claim C1: in the payload `RIFF` ++ PNG-magic, a
candidate signature (`RIFF`) matches at offset 0, yet the converter picks
the PNG match at offset 4, because `detect_embedded` tries the signature
list in order and takes the first signature with a hit anywhere, not the
earliest offset across all signatures. -/
theorem C1_counterexample :
    detect_embedded
        (sCodes "RIFF" ++ [0x89, 0x50, 0x4E, 0x47, 0x0D, 0x0A, 0x1A, 0x0A]) =
      some (sCodes "png", 4) ∧
    occursAt (sCodes "RIFF" ++ [0x89, 0x50, 0x4E, 0x47, 0x0D, 0x0A, 0x1A, 0x0A])
      (sCodes "RIFF") 0 ∧
    (sCodes "RIFF", sCodes "wav") ∈ magicTable ∧
    maybe_convert (sCodes "gscene")
        (sCodes "RIFF" ++ [0x89, 0x50, 0x4E, 0x47, 0x0D, 0x0A, 0x1A, 0x0A])
        (sCodes "n") =
      [⟨[sCodes "_converted", sCodes "gscene", sCodes "n.png"],
        (sCodes "RIFF" ++
          [0x89, 0x50, 0x4E, 0x47, 0x0D, 0x0A, 0x1A, 0x0A]).drop 4⟩] := by
  decide

/-- Claim C1 as amended: for a "gscene" payload, `detect_embedded` tries
the fixed signature list in source order (PNG, JPEG, `OGGS`, `RIFF`,
`DDS `, WebM) and selects the first signature in that order that occurs
anywhere, at that signature's own earliest byte offset (signatures earlier
in the list occur nowhere); the converter then writes the payload from the
selected offset to the end of the buffer under that format's extension. -/
theorem C1_amended (data name_tag ext : List Nat) (i : Nat)
    (h : detect_embedded data = some (ext, i)) :
    (∃ pre m post, magicTable = pre ++ (m, ext) :: post ∧
        occursAt data m i ∧ (∀ l, l < i → ¬ occursAt data m l) ∧
        ∀ p ∈ pre, ∀ l, ¬ occursAt data p.1 l) ∧
    maybe_convert (sCodes "gscene") data name_tag =
      [⟨[sCodes "_converted", sCodes "gscene", name_tag ++ sCodes "." ++ ext],
        data.drop i⟩] := by
  constructor
  · obtain ⟨pre, m, post, heq, hm, hpre⟩ :=
      detect_go_some data magicTable ext i h
    obtain ⟨h1, h2⟩ := findSub_some data m i hm
    exact ⟨pre, m, post, heq, h1, h2,
      fun p hp l => findSub_none data p.1 (hpre p hp) l⟩
  · unfold maybe_convert
    rw [if_neg (by decide), if_neg (by decide), if_neg (by decide),
      if_pos rfl, h]
    rfl

/-- Witness for C1 on a payload that is a PNG from offset 0. -/
theorem C1_amended_witness :
    maybe_convert (sCodes "gscene")
        [0x89, 0x50, 0x4E, 0x47, 0x0D, 0x0A, 0x1A, 0x0A] (sCodes "n") =
      [⟨[sCodes "_converted", sCodes "gscene",
         sCodes "n" ++ sCodes "." ++ sCodes "png"],
        ([0x89, 0x50, 0x4E, 0x47, 0x0D, 0x0A, 0x1A, 0x0A] : List Nat).drop 0⟩] :=
  (C1_amended [0x89, 0x50, 0x4E, 0x47, 0x0D, 0x0A, 0x1A, 0x0A] (sCodes "n")
    (sCodes "png") 0 (by decide)).2

/-- Counterexample to claim C6: the decoder can also fail on an input
slice of length 4 whose stream decompresses fine — here to the empty byte
string, as the real `zlib.compress(b"")` does — because the positional
reads over the decompressed bytes then hit end of input.  So it does not
fail *only* on a short slice or a structurally invalid stream. -/
theorem C6_counterexample :
    parse_meta (fun _ => some []) [0, 0, 0, 0] = none ∧
    ¬ ([0, 0, 0, 0] : List Nat).length < 4 ∧
    (fun (_ : List Nat) => some ([] : List Nat))
        (([0, 0, 0, 0] : List Nat).drop 4) ≠ none := by
  decide

/-- `parse_meta` is the positional field parse of the actual decompressed
bytes, with the warning flag recording the declared-size mismatch. -/
theorem parse_meta_eq (inflate : List Nat → Option (List Nat))
    (mc meta : List Nat) (h4 : 4 ≤ mc.length)
    (hinf : inflate (mc.drop 4) = some meta) :
    parse_meta inflate mc =
      (metaFields meta).map (fun f =>
        ⟨f.1, f.2.1, f.2.2.1, f.2.2.2.1, f.2.2.2.2,
          decide (meta.length ≠ le32 (mc.take 4))⟩) := by
  unfold parse_meta metaFields
  rw [if_neg (by omega), hinf]
  rcases h0 : read_u32 meta 0 with _ | ⟨u0, p0⟩
  · simp [h0]
  rcases h1 : read_u32 meta p0 with _ | ⟨u1, p1⟩
  · simp [h0, h1]
  rcases h2 : read_len_str meta p1 with _ | ⟨mn, p2⟩
  · simp [h0, h1, h2]
  rcases h3 : read_u32 meta p2 with _ | ⟨ec, p3⟩
  · simp [h0, h1, h2, h3]
  rcases h5 : readStrings meta p3 ec with _ | ⟨ex, p4⟩
  · simp [h0, h1, h2, h3, h5]
  rcases h6 : read_u32 meta p4 with _ | ⟨gc, p5⟩
  · simp [h0, h1, h2, h3, h5, h6]
  rcases h7 : readStrings meta p5 gc with _ | ⟨gr, p6⟩
  · simp [h0, h1, h2, h3, h5, h6, h7]
  simp [h0, h1, h2, h3, h5, h6, h7]

/-- Claim C6 as amended: on an input slice of at least 4 bytes whose
stream decompresses, the decoder fails exactly when the decompressed
bytes are too short for the fixed positional fields; otherwise it parses
`unk0`, `unk1`, `methodName`, the extension table and the group table from
the full actual decompressed bytes (never truncated or padded to the
declared size, which only determines the non-fatal warning flag). -/
theorem C6_amended (inflate : List Nat → Option (List Nat))
    (mc meta : List Nat) (h4 : 4 ≤ mc.length)
    (hinf : inflate (mc.drop 4) = some meta) :
    (parse_meta inflate mc = none ↔ metaFields meta = none) ∧
    (∀ u0 u1 mn ex gr, metaFields meta = some (u0, u1, mn, ex, gr) →
      parse_meta inflate mc =
        some ⟨u0, u1, mn, ex, gr,
          decide (meta.length ≠ le32 (mc.take 4))⟩) := by
  have he := parse_meta_eq inflate mc meta h4 hinf
  constructor
  · rw [he]
    cases hf : metaFields meta <;> simp [hf]
  · intro u0 u1 mn ex gr hf
    rw [he, hf]
    rfl

/-- Witness for C6 on concrete metadata declaring one extension "e" and
one group "g", with a matching declared size of 30. -/
theorem C6_amended_witness :
    parse_meta idInflate ([30, 0, 0, 0] ++ metaBytesEG) =
      some ⟨0, 0, [], [[101]], [[103]],
        decide (metaBytesEG.length ≠
          le32 (([30, 0, 0, 0] ++ metaBytesEG).take 4))⟩ :=
  (C6_amended idInflate ([30, 0, 0, 0] ++ metaBytesEG) metaBytesEG
    (by decide) (by decide)).2 0 0 [] [[101]] [[103]] (by decide)

/-- An entry skipped after a soft failure of extraction adds no output. -/
theorem processEntry_outputs_skip (inflate : List Nat → Option (List Nat))
    (dc : Bool) (fd : List Nat) (exts groups : List (List Nat))
    (s : LoopState) (i : Nat) (e : Entry)
    (h : extractPayload inflate fd e = none) :
    (processEntry inflate dc fd exts groups s i e).outputs = s.outputs := by
  by_cases hok : entryOK exts groups e
  · simp only [extractPayload] at h
    by_cases hr : (fread fd e.offset e.size).length ≠ e.size
    · rw [processEntry_shortRead inflate dc fd exts groups s i e hok hr]
    · push_neg at hr
      rw [if_neg (not_not_intro hr)] at h
      by_cases hm : e.method_id = 1
      · rw [if_pos hm] at h
        by_cases hsmall : (fread fd e.offset e.size).length < 4
        · rw [processEntry_blobTooSmall inflate dc fd exts groups s i e hok hr
            hm hsmall]
        · rw [if_neg hsmall] at h
          rw [processEntry_zlibError inflate dc fd exts groups s i e hok hr
            hm hsmall h]
      · rw [if_neg hm] at h
        cases h
  · rw [processEntry_bad inflate dc fd exts groups s i e hok]

/-- A successfully extracted entry appends exactly its primary file (named
by the occurrence counter) and its converted artifacts. -/
theorem processEntry_outputs_write (inflate : List Nat → Option (List Nat))
    (dc : Bool) (fd : List Nat) (exts groups : List (List Nat))
    (s : LoopState) (i : Nat) (e : Entry) (d : List Nat)
    (hok : entryOK exts groups e)
    (hd : extractPayload inflate fd e = some d) :
    (processEntry inflate dc fd exts groups s i e).outputs =
      s.outputs ++
        [⟨[exts.getD e.ext_id [],
           fnameFor (groups.getD e.group_id []) (exts.getD e.ext_id [])
             (lookupCount s.name_counts (baseOf exts groups e) + 1)], d⟩] ++
        (if dc then
          maybe_convert (exts.getD e.ext_id []) d
            (nameTagFor (groups.getD e.group_id [])
              (lookupCount s.name_counts (baseOf exts groups e) + 1))
        else []) := by
  simp only [extractPayload] at hd
  by_cases hr : (fread fd e.offset e.size).length ≠ e.size
  · rw [if_pos hr] at hd
    cases hd
  · push_neg at hr
    rw [if_neg (not_not_intro hr)] at hd
    by_cases hm : e.method_id = 1
    · rw [if_pos hm] at hd
      by_cases hsmall : (fread fd e.offset e.size).length < 4
      · rw [if_pos hsmall] at hd
        cases hd
      · rw [if_neg hsmall] at hd
        rw [processEntry_method1 inflate dc fd exts groups s i e d hok hr hm
          hsmall hd]
    · rw [if_neg hm] at hd
      injection hd with hd1
      rw [processEntry_verbatim inflate dc fd exts groups s i e hok hr hm, hd1]

/-- The second occurrence of a base name gets the `_02` suffix. -/
theorem fnameFor_two (g x : List Nat) :
    fnameFor g x 2 = g ++ sCodes "_02." ++ x := by
  have hp : pad2 2 = [48, 50] := by decide
  have hu : sCodes "_" = [95] := by decide
  have hdot : sCodes "." = [46] := by decide
  have hs : sCodes "_02." = [95, 48, 50, 46] := by decide
  unfold fnameFor nameTagFor
  rw [if_neg (by decide), if_neg (by decide), hp, hu, hdot, hs]
  simp [List.append_assoc]

/-- Claim C5: for an in-range entry whose block was read in full, a
`methodId = 1` block has its first 4 bytes read as the little-endian u32
`expectedSize`, the remainder decompressed, a length mismatch producing
only a warning while the actual decompressed bytes are still written; any
other `methodId` writes the raw block bytes unchanged with no warning. -/
theorem C5_method_dispatch (inflate : List Nat → Option (List Nat))
    (dc : Bool) (fd : List Nat) (exts groups : List (List Nat))
    (s : LoopState) (i : Nat) (e : Entry)
    (h : entryOK exts groups e)
    (hr : (fread fd e.offset e.size).length = e.size) :
    (∀ d, e.method_id = 1 → ¬ (fread fd e.offset e.size).length < 4 →
      inflate ((fread fd e.offset e.size).drop 4) = some d →
      processEntry inflate dc fd exts groups s i e =
        { name_counts := setCount s.name_counts (baseOf exts groups e)
            (lookupCount s.name_counts (baseOf exts groups e) + 1),
          outputs := s.outputs ++
            [⟨[exts.getD e.ext_id [],
               fnameFor (groups.getD e.group_id []) (exts.getD e.ext_id [])
                 (lookupCount s.name_counts (baseOf exts groups e) + 1)], d⟩] ++
            (if dc then
              maybe_convert (exts.getD e.ext_id []) d
                (nameTagFor (groups.getD e.group_id [])
                  (lookupCount s.name_counts (baseOf exts groups e) + 1))
            else []),
          warns := s.warns ++
            (if d.length ≠ le32 ((fread fd e.offset e.size).take 4) then
              [.entrySizeMismatch i]
            else []) }) ∧
    (e.method_id ≠ 1 →
      processEntry inflate dc fd exts groups s i e =
        { name_counts := setCount s.name_counts (baseOf exts groups e)
            (lookupCount s.name_counts (baseOf exts groups e) + 1),
          outputs := s.outputs ++
            [⟨[exts.getD e.ext_id [],
               fnameFor (groups.getD e.group_id []) (exts.getD e.ext_id [])
                 (lookupCount s.name_counts (baseOf exts groups e) + 1)],
              fread fd e.offset e.size⟩] ++
            (if dc then
              maybe_convert (exts.getD e.ext_id []) (fread fd e.offset e.size)
                (nameTagFor (groups.getD e.group_id [])
                  (lookupCount s.name_counts (baseOf exts groups e) + 1))
            else []),
          warns := s.warns }) :=
  ⟨fun d hm hbig hz =>
    processEntry_method1 inflate dc fd exts groups s i e d h hr hm hbig hz,
   fun hm => processEntry_verbatim inflate dc fd exts groups s i e h hr hm⟩

/-- Witness for C5: a compressed entry whose declared size 2 disagrees
with the actual decompressed length 3 is still written, with one
size-mismatch warning. -/
theorem C5_method_dispatch_witness :
    processEntry (fun _ => some [7, 7, 7]) false [2, 0, 0, 0, 9]
        [[101]] [[103]] ⟨[], [], []⟩ 0 ⟨0, 5, 0, 0, 1⟩ =
      ⟨[([103, 46, 101], 1)],
       [⟨[[101], [103, 46, 101]], [7, 7, 7]⟩],
       [Warn.entrySizeMismatch 0]⟩ :=
  (C5_method_dispatch (fun _ => some [7, 7, 7]) false [2, 0, 0, 0, 9]
      [[101]] [[103]] ⟨[], [], []⟩ 0 ⟨0, 5, 0, 0, 1⟩ (by decide)
      (by decide)).1 [7, 7, 7] rfl (by decide) rfl

/-- Claim C3: an entry hitting any per-entry soft failure (out-of-range
indices, short read, a `methodId = 1` block under 4 bytes, or a
decompression failure) produces no output file, exactly one warning
identifying the entry index, and the loop proceeds to the remaining
entries unchanged. -/
theorem C3_soft_fail (inflate : List Nat → Option (List Nat))
    (dc : Bool) (fd : List Nat) (exts groups : List (List Nat))
    (s : LoopState) (i : Nat) (e : Entry)
    (h : ¬ entryOK exts groups e ∨
      (entryOK exts groups e ∧ extractPayload inflate fd e = none)) :
    (processEntry inflate dc fd exts groups s i e).outputs = s.outputs ∧
    (∃ w : Warn, w.entryIdx = some i ∧
      (processEntry inflate dc fd exts groups s i e).warns = s.warns ++ [w]) ∧
    (∀ rest : List Entry,
      unpackLoop inflate dc fd exts groups s i (e :: rest) =
        unpackLoop inflate dc fd exts groups
          (processEntry inflate dc fd exts groups s i e) (i + 1) rest) := by
  have hmain : (processEntry inflate dc fd exts groups s i e).outputs =
      s.outputs ∧
      ∃ w : Warn, w.entryIdx = some i ∧
        (processEntry inflate dc fd exts groups s i e).warns =
          s.warns ++ [w] := by
    rcases h with hbad | ⟨hok, hskip⟩
    · rw [processEntry_bad inflate dc fd exts groups s i e hbad]
      exact ⟨rfl, ⟨.badIndices i, rfl, rfl⟩⟩
    · simp only [extractPayload] at hskip
      by_cases hr : (fread fd e.offset e.size).length ≠ e.size
      · rw [processEntry_shortRead inflate dc fd exts groups s i e hok hr]
        exact ⟨rfl, ⟨.shortRead i, rfl, rfl⟩⟩
      · push_neg at hr
        rw [if_neg (not_not_intro hr)] at hskip
        by_cases hm : e.method_id = 1
        · rw [if_pos hm] at hskip
          by_cases hsmall : (fread fd e.offset e.size).length < 4
          · rw [processEntry_blobTooSmall inflate dc fd exts groups s i e hok
              hr hm hsmall]
            exact ⟨rfl, ⟨.blobTooSmall i, rfl, rfl⟩⟩
          · rw [if_neg hsmall] at hskip
            rw [processEntry_zlibError inflate dc fd exts groups s i e hok hr
              hm hsmall hskip]
            exact ⟨rfl, ⟨.zlibError i, rfl, rfl⟩⟩
        · rw [if_neg hm] at hskip
          cases hskip
  exact ⟨hmain.1, hmain.2, fun _ => rfl⟩

/-- Witness for C3 on a concrete entry whose extension index is out of
range of an empty extension table. -/
theorem C3_soft_fail_witness :
    (processEntry idInflate true [] [] [] ⟨[], [], []⟩ 7
        ⟨0, 0, 0, 0, 0⟩).outputs = (⟨[], [], []⟩ : LoopState).outputs ∧
    (∃ w : Warn, w.entryIdx = some 7 ∧
      (processEntry idInflate true [] [] [] ⟨[], [], []⟩ 7
          ⟨0, 0, 0, 0, 0⟩).warns =
        (⟨[], [], []⟩ : LoopState).warns ++ [w]) ∧
    (∀ rest : List Entry,
      unpackLoop idInflate true [] [] [] ⟨[], [], []⟩ 7
          (⟨0, 0, 0, 0, 0⟩ :: rest) =
        unpackLoop idInflate true [] [] []
          (processEntry idInflate true [] [] [] ⟨[], [], []⟩ 7
            ⟨0, 0, 0, 0, 0⟩) (7 + 1) rest) :=
  C3_soft_fail idInflate true [] [] [] ⟨[], [], []⟩ 7 ⟨0, 0, 0, 0, 0⟩
    (Or.inl (by decide))

/-- Claim C4: after processing `es1`, in which every entry sharing the
base name of `e` was successfully extracted, a further successful entry
`e` — the `n`-th occurrence of its group/extension pair — is written as
`{extension}/{group}.{extension}` when `n = 1` and as
`{extension}/{group}_{n:02d}.{extension}` when `n ≥ 2` (`fnameFor` is the
loop's naming rule, zero-padding `n` to at least two digits). -/
theorem C4_dedup_naming (inflate : List Nat → Option (List Nat))
    (dc : Bool) (fd : List Nat) (exts groups : List (List Nat))
    (es1 : List Entry) (i : Nat) (e : Entry) (d : List Nat)
    (hprev : ∀ a ∈ es1, baseOf exts groups a = baseOf exts groups e →
      entryOK exts groups a ∧ extractPayload inflate fd a ≠ none)
    (hok : entryOK exts groups e)
    (hd : extractPayload inflate fd e = some d) :
    (processEntry inflate dc fd exts groups
        (unpackLoop inflate dc fd exts groups ⟨[], [], []⟩ 0 es1) i e).outputs =
      (unpackLoop inflate dc fd exts groups ⟨[], [], []⟩ 0 es1).outputs ++
        [⟨[exts.getD e.ext_id [],
           fnameFor (groups.getD e.group_id []) (exts.getD e.ext_id [])
             (es1.countP (fun a =>
                decide (baseOf exts groups a = baseOf exts groups e)) + 1)],
          d⟩] ++
        (if dc then
          maybe_convert (exts.getD e.ext_id []) d
            (nameTagFor (groups.getD e.group_id [])
              (es1.countP (fun a =>
                decide (baseOf exts groups a = baseOf exts groups e)) + 1))
        else []) := by
  have hcnt : lookupCount (unpackLoop inflate dc fd exts groups ⟨[], [], []⟩
        0 es1).name_counts (baseOf exts groups e) =
      es1.countP (fun a =>
        decide (baseOf exts groups a = baseOf exts groups e)) := by
    rw [lookupCount_unpackLoop]
    have hz : lookupCount (⟨[], [], []⟩ : LoopState).name_counts
        (baseOf exts groups e) = 0 := rfl
    rw [hz, Nat.zero_add]
    refine List.countP_congr ?_
    intro a ha
    by_cases hb : baseOf exts groups a = baseOf exts groups e
    · simp [hb, (hprev a ha hb).1]
    · simp [hb]
  rw [processEntry_outputs_write inflate dc fd exts groups _ i e d hok hd,
    hcnt]

/-- Witness for C4: the three-entry archive `[A, B, C]`, all mapping to
group "g", extension "e", yields `g.e`, `g_02.e`, `g_03.e` — both via the
theorem applied to the third entry and via the full `unpack` run. -/
theorem C4_dedup_naming_witness :
    (processEntry idInflate true archiveABC [[101]] [[103]]
        (unpackLoop idInflate true archiveABC [[101]] [[103]] ⟨[], [], []⟩ 0
          [⟨110, 1, 0, 0, 0⟩, ⟨111, 1, 0, 0, 0⟩]) 2 ⟨112, 1, 0, 0, 0⟩).outputs =
      [⟨[[101], [103, 46, 101]], [65]⟩,
       ⟨[[101], [103, 95, 48, 50, 46, 101]], [66]⟩,
       ⟨[[101], [103, 95, 48, 51, 46, 101]], [67]⟩] ∧
    unpack idInflate archiveABC true =
      .ok ⟨[⟨[[101], [103, 46, 101]], [65]⟩,
            ⟨[[101], [103, 95, 48, 50, 46, 101]], [66]⟩,
            ⟨[[101], [103, 95, 48, 51, 46, 101]], [67]⟩], []⟩ :=
  ⟨(C4_dedup_naming idInflate true archiveABC [[101]] [[103]]
      [⟨110, 1, 0, 0, 0⟩, ⟨111, 1, 0, 0, 0⟩] 2 ⟨112, 1, 0, 0, 0⟩ [67]
      (by decide) (by decide) (by decide)).trans (by decide),
   by decide⟩

/-- Claim C10: the occurrence counter is bumped before the entry's block
is read, so an in-range entry `e1` that is then skipped by a soft failure
still consumes a count: starting from a state with no occurrences of the
base name, the skipped entry writes nothing yet leaves the counter at 1,
and a following same-named successful entry `e2` is written with the
`_02` suffix while no unsuffixed `{group}.{extension}` file exists among
the outputs. -/
theorem C10_skip_consumes_count (inflate : List Nat → Option (List Nat))
    (dc : Bool) (fd : List Nat) (exts groups : List (List Nat))
    (s : LoopState) (i j : Nat) (e1 e2 : Entry) (d : List Nat)
    (h1 : entryOK exts groups e1)
    (hskip : extractPayload inflate fd e1 = none)
    (h2 : entryOK exts groups e2)
    (hsame : baseOf exts groups e2 = baseOf exts groups e1)
    (hd : extractPayload inflate fd e2 = some d)
    (h0 : lookupCount s.name_counts (baseOf exts groups e1) = 0) :
    lookupCount (processEntry inflate dc fd exts groups s i e1).name_counts
        (baseOf exts groups e1) = 1 ∧
    (processEntry inflate dc fd exts groups s i e1).outputs = s.outputs ∧
    (processEntry inflate dc fd exts groups
        (processEntry inflate dc fd exts groups s i e1) j e2).outputs =
      s.outputs ++
        [⟨[exts.getD e2.ext_id [],
           groups.getD e2.group_id [] ++ sCodes "_02." ++
             exts.getD e2.ext_id []], d⟩] ++
        (if dc then
          maybe_convert (exts.getD e2.ext_id []) d
            (nameTagFor (groups.getD e2.group_id []) 2)
        else []) ∧
    (∀ o ∈ (processEntry inflate dc fd exts groups
        (processEntry inflate dc fd exts groups s i e1) j e2).outputs,
      o ∈ s.outputs ∨
        o.path ≠ [exts.getD e2.ext_id [],
          groups.getD e2.group_id [] ++ sCodes "." ++
            exts.getD e2.ext_id []]) := by
  have hc1 : lookupCount (processEntry inflate dc fd exts groups s i
      e1).name_counts (baseOf exts groups e1) = 1 := by
    rw [lookupCount_processEntry, h0, if_pos ⟨h1, rfl⟩]
  have hout1 : (processEntry inflate dc fd exts groups s i e1).outputs =
      s.outputs :=
    processEntry_outputs_skip inflate dc fd exts groups s i e1 hskip
  have hc2 : lookupCount (processEntry inflate dc fd exts groups s i
      e1).name_counts (baseOf exts groups e2) = 1 := by
    rw [hsame]
    exact hc1
  have hout2 : (processEntry inflate dc fd exts groups
      (processEntry inflate dc fd exts groups s i e1) j e2).outputs =
      s.outputs ++
        [⟨[exts.getD e2.ext_id [],
           fnameFor (groups.getD e2.group_id []) (exts.getD e2.ext_id []) 2],
          d⟩] ++
        (if dc then
          maybe_convert (exts.getD e2.ext_id []) d
            (nameTagFor (groups.getD e2.group_id []) 2)
        else []) := by
    rw [processEntry_outputs_write inflate dc fd exts groups _ j e2 d h2 hd,
      hc2, hout1]
  refine ⟨hc1, hout1, ?_, ?_⟩
  · rw [hout2, fnameFor_two]
  · intro o ho
    rw [hout2] at ho
    rcases List.mem_append.mp ho with ho1 | hconv
    · rcases List.mem_append.mp ho1 with hs | hf
      · exact Or.inl hs
      · rcases List.mem_singleton.mp hf with rfl
        refine Or.inr ?_
        intro heq
        have h2nd := (List.cons.injEq _ _ _ _).mp heq
        have hlen := congrArg List.length ((List.cons.injEq _ _ _ _).mp
          h2nd.2).1
        rw [fnameFor_two] at hlen
        have hsc : (sCodes "_02.").length = 4 := by decide
        have hsd : (sCodes ".").length = 1 := by decide
        simp only [List.length_append, hsc, hsd] at hlen
        omega
    · by_cases hdc : dc = true
      · rw [if_pos hdc] at hconv
        obtain ⟨recExt, -, hpath⟩ :=
          maybe_convert_shape (exts.getD e2.ext_id []) d
            (nameTagFor (groups.getD e2.group_id []) 2) o hconv
        refine Or.inr ?_
        intro heq
        have := congrArg List.length (hpath.symm.trans heq)
        simp at this
      · rw [if_neg hdc] at hconv
        cases hconv

/-- Witness for C10: a one-byte file where entry `e1` short-reads (offset
past end of file) and `e2` then reads byte 65; the sole output is the
`_02`-suffixed file. -/
theorem C10_skip_consumes_count_witness :
    lookupCount (processEntry idInflate false [65] [[101]] [[103]]
        ⟨[], [], []⟩ 0 ⟨5, 3, 0, 0, 0⟩).name_counts
        (baseOf [[101]] [[103]] ⟨5, 3, 0, 0, 0⟩) = 1 ∧
    (processEntry idInflate false [65] [[101]] [[103]] ⟨[], [], []⟩ 0
        ⟨5, 3, 0, 0, 0⟩).outputs = (⟨[], [], []⟩ : LoopState).outputs ∧
    (processEntry idInflate false [65] [[101]] [[103]]
        (processEntry idInflate false [65] [[101]] [[103]] ⟨[], [], []⟩ 0
          ⟨5, 3, 0, 0, 0⟩) 1 ⟨0, 1, 0, 0, 0⟩).outputs =
      (⟨[], [], []⟩ : LoopState).outputs ++
        [⟨[([[101]] : List (List Nat)).getD 0 [],
           ([[103]] : List (List Nat)).getD 0 [] ++ sCodes "_02." ++
             ([[101]] : List (List Nat)).getD 0 []], [65]⟩] ++
        (if false then
          maybe_convert (([[101]] : List (List Nat)).getD 0 []) [65]
            (nameTagFor (([[103]] : List (List Nat)).getD 0 []) 2)
        else []) ∧
    (∀ o ∈ (processEntry idInflate false [65] [[101]] [[103]]
        (processEntry idInflate false [65] [[101]] [[103]] ⟨[], [], []⟩ 0
          ⟨5, 3, 0, 0, 0⟩) 1 ⟨0, 1, 0, 0, 0⟩).outputs,
      o ∈ (⟨[], [], []⟩ : LoopState).outputs ∨
        o.path ≠ [([[101]] : List (List Nat)).getD 0 [],
          ([[103]] : List (List Nat)).getD 0 [] ++ sCodes "." ++
            ([[101]] : List (List Nat)).getD 0 []]) :=
  C10_skip_consumes_count idInflate false [65] [[101]] [[103]] ⟨[], [], []⟩
    0 1 ⟨5, 3, 0, 0, 0⟩ ⟨0, 1, 0, 0, 0⟩ [65] (by decide) (by decide)
    (by decide) (by decide) (by decide) (by decide)

end Unpacker
